import Mathlib

/-!
Verification of the wasp committee-node core against its specification.

The development shallowly embeds three parts of the code base:

* the framed peer transport (`peeredConnection.receiveData`,
  `processHandShakeInbound`, the connection close handler) from the
  `peering` package;
* the consensus operator event handlers (`EventSignedHashMsg`,
  `EventResultCalculated`) from `packages/committee/consensus/eventproc.go`;
* the bootup registry (`BootupData.Write`, `BootupData.Read`,
  `SaveBootupData`) from `packages/registry/bootup.go`.

Bytes are modelled as `Nat`, byte strings as `List Nat`.  Stateful handlers
are modelled as pure functions from the pre-state to the post-state together
with an explicit list of emitted effects (log lines, sends, closes, event
triggers).
-/

namespace Wasp

/-! ## Peer transport layer (package `peering`)

The message envelope.  Modelled from the spec: the wire format is
`u8 msg_type ‖ i64_be timestamp ‖ payload` after the length prefix has been
stripped by the buffered connection (the `decodeMessage` helper itself is not
under `src/`, only its caller `receiveData` is). -/

structure PeerMessage where
  msgType : Nat
  timestamp : Int
  msgData : List Nat
deriving DecidableEq, Repr

/-- Reserved message type `HANDSHAKE` (spec value 0). -/
def MsgTypeHandshake : Nat := 0

/-- Reserved message type `HEARTBEAT` (spec value 1). -/
def MsgTypeHeartbeat : Nat := 1

/-- Reserved message type `MSG_CHUNK` (spec value 2). -/
def MsgTypeMsgChunk : Nat := 2

/-- Big-endian interpretation of a byte list. -/
def beNat (bs : List Nat) : Nat := bs.foldl (fun acc b => acc * 256 + b) 0

/-- Modelled from the spec: `decodeMessage` parses the envelope
`u8 msg_type ‖ i64_be timestamp ‖ payload`; a buffer shorter than the
9 header bytes fails to decode. -/
def decodeMessage (data : List Nat) : Except String PeerMessage :=
  if data.length < 9 then Except.error "too short message"
  else Except.ok
    { msgType := data.headD 0
      timestamp := Int.ofNat (beNat ((data.drop 1).take 8))
      msgData := data.drop 9 }

/-- True iff `decodeMessage` fails on the buffer. -/
def decodeFails (data : List Nat) : Bool :=
  match decodeMessage data with
  | Except.error _ => true
  | Except.ok _ => false

/-- The view of the bound peer that `receiveData` consults: just the
`handshakeOk` flag of `bconn.peer`. -/
structure PeerView where
  handshakeOk : Bool
deriving DecidableEq, Repr

/-- The connection state `receiveData` runs against: `peer` is
`bconn.peer`, which is `none` for a freshly accepted (detached) inbound
connection. -/
structure ConnState where
  peer : Option PeerView
deriving DecidableEq, Repr

/-- Observable actions of the receive path.  `panicNilPeerDeref` marks the
Go-level nil-pointer dereference that `bconn.peer.closeConn()` performs when
`bconn.peer == nil`. -/
inductive Effect where
  | logError
  | closePeerConn
  | panicNilPeerDeref
  | closeConn
  | receiveHeartbeat (ts : Int)
  | triggerPeerMessageReceived (m : PeerMessage)
  | handshakeOutbound (m : PeerMessage)
  | handshakeInbound (m : PeerMessage)
  | sendHandshakeReply (id : List Nat)
  | initHeartbeats
deriving DecidableEq, Repr

/-- The non-chunk dispatch tail of `receiveData` (part_000 lines 59-88):
heartbeat bookkeeping and `EventPeerMessageReceived` for handshaked peers,
handshake dispatch otherwise. -/
def dispatchPeered (conn : ConnState) (msg : PeerMessage) : List Effect :=
  match conn.peer with
  | some p =>
    if p.handshakeOk then
      Effect.receiveHeartbeat msg.timestamp ::
        (if msg.msgType = MsgTypeHeartbeat then []
         else [Effect.triggerPeerMessageReceived msg])
    else
      if msg.msgType ≠ MsgTypeHandshake then [Effect.logError]
      else [Effect.handshakeOutbound msg]
  | none =>
    if msg.msgType ≠ MsgTypeHandshake then [Effect.logError]
    else [Effect.handshakeInbound msg]

/-- `peeredConnection.receiveData` (part_000 lines 42-89).  The external
`chopper.IncomingChunk` call is abstracted as the parameter `incomingChunk`
(error, no final message yet, or reassembled final message).  The `fuel`
parameter bounds the recursion of the source (`bconn.receiveData(finalMsg)`);
every concrete evaluation below uses enough fuel for its input.  Note that in
the source the chunk branch does not return: after chunk processing control
falls through to the dispatch code with the chunk frame itself. -/
def receiveData : Nat → (List Nat → Except Unit (Option (List Nat))) →
    ConnState → List Nat → List Effect
  | 0, _, _, _ => []
  | Nat.succ fuel, incomingChunk, conn, data =>
    match decodeMessage data with
    | Except.error _ =>
      match conn.peer with
      | none => [Effect.logError, Effect.panicNilPeerDeref]
      | some _ => [Effect.logError, Effect.closePeerConn]
    | Except.ok msg =>
      if msg.msgType = MsgTypeMsgChunk then
        match incomingChunk msg.msgData with
        | Except.error _ => [Effect.logError]
        | Except.ok none => dispatchPeered conn msg
        | Except.ok (some finalMsg) =>
          receiveData fuel incomingChunk conn finalMsg ++ dispatchPeered conn msg
      else dispatchPeered conn msg

/-- An effect that closes the underlying connection (either through the bound
peer via `closeConn` on the peer, or directly via `bconn.Close`). -/
def closesConnection : Effect → Bool
  | Effect.closePeerConn => true
  | Effect.closeConn => true
  | _ => false

/-! ### Inbound handshake (`processHandShakeInbound`, part_000 lines 113-143) -/

/-- Registry lookup result used by `processHandShakeInbound`: the peer map is
an association list from peering id to the `inbound` classification flag; the
handshake proceeds iff the id is found and the peer is classified inbound
(`!ok || !peer.isInbound()` closes). -/
def lookupInbound (peers : List (List Nat × Bool)) (id : List Nat) : Bool :=
  match peers.find? (fun kv => kv.1 == id) with
  | some kv => kv.2
  | none => false

/-- Outcome of `processHandShakeInbound`: the peer the connection got bound to
(`bconn.peer` / `peer.peerconn`), the bound peer's `handshakeOk` flag, and the
emitted effects. -/
structure HSOutcome where
  boundPeer : Option (List Nat)
  peerHandshakeOk : Bool
  effects : List Effect
deriving DecidableEq, Repr

/-- `processHandShakeInbound` (part_000 lines 113-143).  `ownId` is the local
node's peering id carried by the handshake reply (`peer.sendHandshake` is not
under `src/`; modelled from the spec: the receiver "replies with a HANDSHAKE
carrying its own id").  `sendOk` abstracts the success of that send; on send
error the connection is closed. -/
def processHandShakeInbound (peers : List (List Nat × Bool)) (ownId : List Nat)
    (sendOk : Bool) (msg : PeerMessage) : HSOutcome :=
  let peeringId := msg.msgData
  if lookupInbound peers peeringId then
    if sendOk then
      { boundPeer := some peeringId
        peerHandshakeOk := true
        effects := [Effect.sendHandshakeReply ownId, Effect.initHeartbeats] }
    else
      { boundPeer := some peeringId
        peerHandshakeOk := true
        effects := [Effect.sendHandshakeReply ownId, Effect.closeConn] }
  else
    { boundPeer := none
      peerHandshakeOk := false
      effects := [Effect.closeConn] }

/-! ### Peer state machine for the handshake/close lifecycle -/

/-- The fields of a `Peer` that the connection lifecycle mutates:
`peerconn` (the connection slot, identified by a connection id) and
`handshakeOk`. -/
structure PeerSt where
  peerconn : Option Nat
  handshakeOk : Bool
deriving DecidableEq, Repr

/-- The `Events.Close` handler attached in `newPeeredConnection`
(part_000 lines 29-37), as it acts on the bound peer: it clears
`peer.peerconn` and resets `peer.handshakeOk`. -/
def closeEventHandler (_p : PeerSt) : PeerSt :=
  { peerconn := none, handshakeOk := false }

/-- Transitions of a peer's `(peerconn, handshakeOk)` pair.

* `dialBind`: the outbound redial loop attaches a fresh connection before the
  handshake completes (modelled from the spec: the dial path is not under
  `src/`; "on dial, the initiator sends HANDSHAKE ... awaits a reply").
* `inboundHandshake`: `processHandShakeInbound` lines 128-131 set
  `peer.peerconn` and `peer.handshakeOk` together.
* `outboundHandshake`: `processHandShakeOutbound` line 102 sets
  `handshakeOk = true`; the message was delivered on the peer's current
  connection, so `peerconn` is already that connection.
* `closeEvt`: the close handler of part_000 lines 29-37. -/
inductive PeerStep : PeerSt → PeerSt → Prop
  | dialBind (c : Nat) (s : PeerSt) :
      PeerStep s { peerconn := some c, handshakeOk := false }
  | inboundHandshake (c : Nat) (s : PeerSt) :
      PeerStep s { peerconn := some c, handshakeOk := true }
  | outboundHandshake (c : Nat) (s : PeerSt) (h : s.peerconn = some c) :
      PeerStep s { s with handshakeOk := true }
  | closeEvt (s : PeerSt) : PeerStep s (closeEventHandler s)

/-- Peer states reachable from the initial disconnected state. -/
def PeerReachable (s : PeerSt) : Prop :=
  Relation.ReflTransGen PeerStep { peerconn := none, handshakeOk := false } s

/-! ## Consensus operator (`packages/committee/consensus/eventproc.go`)

Hash values (batch hash, essence hash) and BLS signature shares are opaque to
the handlers shown in `eventproc.go`; they are modelled as `Nat`. -/

/-- One entry of `leaderStatus.signedResults`: the `signedResult` struct. -/
structure SignedResult where
  essenceHash : Nat
  sigShare : Nat
deriving DecidableEq, Repr

/-- The part of `leaderStatus` that `EventSignedHashMsg` touches: the proposed
batch hash and the per-peer collected signature shares (a slice indexed by
committee peer index; `none` models a nil entry). -/
structure LeaderStatus where
  batchHash : Nat
  signedResults : List (Option SignedResult)
deriving DecidableEq, Repr

/-- The operator state consulted by `EventSignedHashMsg`: `leaderStatus`
(possibly nil), `op.stateIndex()` (the index together with its `ok` flag,
modelled as `Option Nat`), and `op.committee.OwnPeerIndex()`. -/
structure Operator where
  leaderStatus : Option LeaderStatus
  stateIndex : Option Nat
  ownPeerIndex : Nat
deriving DecidableEq, Repr

/-- The `SignedHashMsg` fields read by the handler (`OrigTimestamp` is only
logged and is omitted). -/
structure SignedHashMsg where
  senderIndex : Nat
  stateIndex : Nat
  batchHash : Nat
  essenceHash : Nat
  sigShare : Nat
deriving DecidableEq, Repr

/-- Indexing into the `signedResults` slice: the entry at position `i`, or
`none` past the end. -/
def nthShare : List (Option SignedResult) → Nat → Option SignedResult
  | [], _ => none
  | x :: _, 0 => x
  | _ :: t, Nat.succ i => nthShare t i

/-- `operator.EventSignedHashMsg` (eventproc.go lines 187-217).  The handler
returns early (state unchanged) when `leaderStatus` is nil, when
`op.stateIndex()` is not ok or differs from the message's state index, when
the batch hash differs, or when a share from the sender is already recorded;
otherwise it stores the sender's `{essenceHash, sigShare}`.  The trailing
`op.takeAction()` call is a separate routine and is not part of the recording
logic modelled here. -/
def EventSignedHashMsg (op : Operator) (msg : SignedHashMsg) : Operator :=
  match op.leaderStatus with
  | none => op
  | some ls =>
    match op.stateIndex with
    | none => op
    | some stateIndex =>
      if msg.stateIndex ≠ stateIndex then op
      else if msg.batchHash ≠ ls.batchHash then op
      else if (nthShare ls.signedResults msg.senderIndex).isSome then op
      else
        { op with
          leaderStatus := some
            { ls with
              signedResults := ls.signedResults.set msg.senderIndex
                (some { essenceHash := msg.essenceHash, sigShare := msg.sigShare }) } }

/-- The signature share recorded for peer `i`, if any. -/
def shLookup (op : Operator) (i : Nat) : Option SignedResult :=
  match op.leaderStatus with
  | none => none
  | some ls => nthShare ls.signedResults i

/-- The four gates the source checks before recording a share, plus the
requirement that the sender index addresses a slot of the slice (in Go an
out-of-range `msg.SenderIndex` would panic at the `signedResults` indexing;
sender indices delivered by the committee layer are always in range). -/
def shGates (op : Operator) (msg : SignedHashMsg) : Bool :=
  match op.leaderStatus, op.stateIndex with
  | some ls, some si =>
    decide (msg.stateIndex = si) && decide (msg.batchHash = ls.batchHash)
      && decide (nthShare ls.signedResults msg.senderIndex = none)
      && decide (msg.senderIndex < ls.signedResults.length)
  | _, _ => false

/-- Effects dispatched by `EventResultCalculated`. -/
inductive OpEffect where
  | pendingBatchToStateManager
  | saveOwnResult
  | sendResultToLeader
  | takeActionCall
deriving DecidableEq, Repr

/-- The fields of the completed `vm.VMTask` that the handler reads:
`ctx.ResultBatch.StateIndex()` and `ctx.LeaderPeerIndex`. -/
structure VMTask where
  resultBatchStateIndex : Nat
  leaderPeerIndex : Nat
deriving DecidableEq, Repr

/-- `operator.EventResultCalculated` (eventproc.go lines 157-185).
`stateIndex` is `op.mustStateIndex()` (the handler panics if the current
state is undefined, so a defined current state is assumed) and `ownPeerIndex`
is `op.committee.OwnPeerIndex()`.  An out-of-context result batch is dropped;
otherwise the batch is forwarded to the state manager as `PendingBatchMsg`
and the result is kept locally (leader) or signed and sent to the leader
(follower). -/
def EventResultCalculated (stateIndex ownPeerIndex : Nat) (ctx : VMTask) :
    List OpEffect :=
  if ctx.resultBatchStateIndex ≠ stateIndex + 1 then []
  else
    OpEffect.pendingBatchToStateManager ::
      (if ctx.leaderPeerIndex = ownPeerIndex then [OpEffect.saveOwnResult]
       else [OpEffect.sendResultToLeader]) ++ [OpEffect.takeActionCall]

/-! ## Bootup registry (`packages/registry/bootup.go`)

`address.Address` and `balance.Color` are fixed-size byte arrays of the
external value-ledger library; per the spec the address is 20 bytes and the
color 32 bytes. -/

/-- A 20-byte ledger address. -/
abbrev Address := { l : List Nat // l.length = 20 }

/-- A 32-byte color. -/
abbrev Color := { l : List Nat // l.length = 32 }

/-- The zero value `var niladdr address.Address`. -/
def nilAddress : Address := ⟨List.replicate 20 0, by simp⟩

/-- The external library constant `balance.ColorIOTA`: the all-zero color. -/
def colorIOTA : Color := ⟨List.replicate 32 0, by simp⟩

/-- The external library constant `balance.ColorNew`: the reserved all-0xFF
"new color" mint marker. -/
def colorNew : Color := ⟨List.replicate 32 255, by simp⟩

/-- `registry.BootupData` (bootup.go lines 18-24).  Peering ids are byte
strings. -/
structure BootupData where
  address : Address
  ownerAddress : Address
  color : Color
  committeeNodes : List (List Nat)
  accessNodes : List (List Nat)
deriving DecidableEq, Repr

/-! ### Binary encoding primitives

Modelled from the spec: the `util.WriteUint16` / `WriteStrings16` /
`ReadAddress` / `ReadColor` / `ReadStrings16` helpers are not under `src/`;
the spec gives the record layout
`address ‖ owner_address ‖ color[32] ‖ u16 count ‖ (u16 len ‖ utf8)*` twice.
A `u16` is encoded as two bytes (low byte first); values that do not fit in
16 bits make the corresponding write fail. -/

/-- Encode a `u16` value as two bytes, low byte first. -/
def WriteUint16 (n : Nat) : List Nat := [n % 256, n / 256 % 256]

/-- Decode a `u16` value, returning the remaining input. -/
def ReadUint16 : List Nat → Option (Nat × List Nat)
  | a :: b :: rest => some (a + 256 * b, rest)
  | _ => none

/-- Read exactly `n` raw bytes, returning them and the remaining input. -/
def readBytes (n : Nat) (data : List Nat) : Option (List Nat × List Nat) :=
  if n ≤ data.length then some (data.take n, data.drop n) else none

/-- Read a fixed-size byte array (used for addresses and colors). -/
def readFixed (n : Nat) (data : List Nat) :
    Option ({ l : List Nat // l.length = n } × List Nat) :=
  if h : n ≤ data.length then
    some (⟨data.take n, by rw [List.length_take]; omega⟩, data.drop n)
  else none

/-- `util.ReadAddress`. -/
def ReadAddress (data : List Nat) : Option (Address × List Nat) :=
  readFixed 20 data

/-- `util.ReadColor`. -/
def ReadColor (data : List Nat) : Option (Color × List Nat) :=
  readFixed 32 data

/-- Write one length-prefixed string (`u16 len ‖ bytes`). -/
def WriteString16 (s : List Nat) : Option (List Nat) :=
  if s.length < 65536 then some (WriteUint16 s.length ++ s) else none

/-- Read one length-prefixed string. -/
def ReadString16 (data : List Nat) : Option (List Nat × List Nat) :=
  match ReadUint16 data with
  | none => none
  | some (n, r) => readBytes n r

/-- Concatenate the encodings of a list of strings (without the count). -/
def writeStringsList : List (List Nat) → Option (List Nat)
  | [] => some []
  | s :: rest =>
    match WriteString16 s, writeStringsList rest with
    | some w, some ws => some (w ++ ws)
    | _, _ => none

/-- Read exactly `n` length-prefixed strings. -/
def readStringsN : Nat → List Nat → Option (List (List Nat) × List Nat)
  | 0, data => some ([], data)
  | Nat.succ n, data =>
    match ReadString16 data with
    | none => none
    | some (s, r) =>
      match readStringsN n r with
      | none => none
      | some (ss, r2) => some (s :: ss, r2)

/-- `util.WriteStrings16`: `u16 count ‖ (u16 len ‖ bytes)*`. -/
def WriteStrings16 (ss : List (List Nat)) : Option (List Nat) :=
  if ss.length < 65536 then
    match writeStringsList ss with
    | some body => some (WriteUint16 ss.length ++ body)
    | none => none
  else none

/-- `util.ReadStrings16`. -/
def ReadStrings16 (data : List Nat) : Option (List (List Nat) × List Nat) :=
  match ReadUint16 data with
  | none => none
  | some (n, r) => readStringsN n r

/-- `BootupData.Write` (bootup.go lines 89-106): address, owner address,
color, committee-node list, access-node list. -/
def BootupData.Write (bd : BootupData) : Option (List Nat) :=
  match WriteStrings16 bd.committeeNodes, WriteStrings16 bd.accessNodes with
  | some cn, some an =>
    some (bd.address.val ++ (bd.ownerAddress.val ++ (bd.color.val ++ (cn ++ an))))
  | _, _ => none

/-- `BootupData.Read` (bootup.go lines 108-126), returning the parsed record
and the unread remainder of the input. -/
def BootupData.Read (data : List Nat) : Option (BootupData × List Nat) :=
  match ReadAddress data with
  | none => none
  | some (a, r1) =>
    match ReadAddress r1 with
    | none => none
    | some (o, r2) =>
      match ReadColor r2 with
      | none => none
      | some (c, r3) =>
        match ReadStrings16 r3 with
        | none => none
        | some (cn, r4) =>
          match ReadStrings16 r4 with
          | none => none
          | some (an, r5) =>
            some ({ address := a, ownerAddress := o, color := c,
                    committeeNodes := cn, accessNodes := an }, r5)

/-! ### `SaveBootupData` over a key-value store -/

/-- The registry partition of the key-value store, as an association list of
key/value byte strings. -/
abbrev Store := List (List Nat × List Nat)

/-- `database.MakeKey(ObjectTypeBootupData, addr)`: per the spec the bootup
object-type prefix byte is `0x01`. -/
def dbkeyBootupData (addr : Address) : List Nat := 1 :: addr.val

/-- `store.Has`. -/
def storeHas (store : Store) (k : List Nat) : Bool :=
  store.any (fun kv => kv.1 == k)

/-- `store.Set`: replace the binding of `k` or append a new one. -/
def storeSet (store : Store) (k v : List Nat) : Store :=
  match store with
  | [] => [(k, v)]
  | kv :: rest => if kv.1 = k then (k, v) :: rest else kv :: storeSet rest k v

/-- `registry.SaveBootupData` (bootup.go lines 30-56): reject the zero
address and the reserved colors; with `overwrite` set, reject an address that
already has a record; otherwise serialize and store the record. -/
def SaveBootupData (store : Store) (bd : BootupData) (overwrite : Bool) :
    Except String Store :=
  if bd.address = nilAddress then Except.error "can be empty address"
  else if bd.color = colorNew ∨ bd.color = colorIOTA then
    Except.error "cant be IOTA or New color"
  else if overwrite && storeHas store (dbkeyBootupData bd.address) then
    Except.error "smart contract already exist in the registry"
  else
    match BootupData.Write bd with
    | none => Except.error "write error"
    | some bytes => Except.ok (storeSet store (dbkeyBootupData bd.address) bytes)

/-! ### Concrete records used by witnesses and counterexamples -/

/-- The operator state used in the counterexample to claim C1: the leader at
state index 3 proposed batch hash 7 and stored its own result with essence
hash 5 under its own peer index 0; no share from peer 1 yet. -/
def opC1 : Operator :=
  { leaderStatus := some
      { batchHash := 7
        signedResults := [some { essenceHash := 5, sigShare := 0 }, none] }
    stateIndex := some 3
    ownPeerIndex := 0 }

/-- The message used in the counterexample to claim C1: peer 1 reports
essence hash 9, disagreeing with the leader's own essence hash 5. -/
def msgC1 : SignedHashMsg :=
  { senderIndex := 1, stateIndex := 3, batchHash := 7, essenceHash := 9, sigShare := 11 }

/-- The record used in the round-trip witness. -/
def bdEx : BootupData :=
  { address := ⟨List.replicate 20 0, by simp⟩
    ownerAddress := ⟨List.replicate 20 1, by simp⟩
    color := ⟨List.replicate 32 2, by simp⟩
    committeeNodes := [[10, 11]]
    accessNodes := [] }

/-- A non-zero address used by the bootup counterexamples. -/
def addrOne : Address := ⟨List.replicate 20 1, by simp⟩

/-- The record used in the counterexample to claim C8: a valid (non-zero)
address with the all-0xFF reserved "new" color, which is neither the all-zero
address nor the all-zero IOTA color. -/
def bdC8 : BootupData :=
  { address := addrOne
    ownerAddress := nilAddress
    color := colorNew
    committeeNodes := []
    accessNodes := [] }

/-- A color distinct from both reserved colors, used by the C9 witness. -/
def colorC9 : Color := ⟨List.replicate 32 3, by simp⟩

/-- The valid record used in the C9 witness. -/
def bdC9 : BootupData :=
  { address := addrOne
    ownerAddress := nilAddress
    color := colorC9
    committeeNodes := [[7]]
    accessNodes := [] }

/-! ## Theorems about the peer transport -/

/-- The dispatch tail of `receiveData` never emits a connection-closing
effect: unexpected message types during handshake are only logged. -/
lemma dispatchPeered_no_close (conn : ConnState) (msg : PeerMessage) :
    (dispatchPeered conn msg).any closesConnection = false := by
  obtain ⟨po⟩ := conn
  cases po with
  | none =>
    by_cases h : msg.msgType = 0 <;>
      simp [dispatchPeered, h, closesConnection, MsgTypeHandshake, MsgTypeHeartbeat]
  | some p =>
    obtain ⟨b⟩ := p
    cases b with
    | false =>
      by_cases h : msg.msgType = 0 <;>
        simp [dispatchPeered, h, closesConnection, MsgTypeHandshake, MsgTypeHeartbeat]
    | true =>
      by_cases h2 : msg.msgType = 1 <;>
        simp [dispatchPeered, h2, closesConnection, MsgTypeHandshake, MsgTypeHeartbeat]

/-- Claim C2 (amended): in `receiveData`, only a decode failure closes the
connection, and only when a peer is bound; a non-HANDSHAKE message before
`handshake_ok` and a chunk-reassembly failure are logged and dropped without
closing.  The hypothesis restricts the run to frames whose chunk processing
does not hand a reassembled composite back (the recursive composite delivery
is a separate message processing run). -/
theorem receiveData_close_only_on_decode_error
    (fuel : Nat) (ic : List Nat → Except Unit (Option (List Nat)))
    (conn : ConnState) (data : List Nat)
    (hic : ∀ m, ic m = Except.ok none ∨ ic m = Except.error ()) :
    (receiveData (fuel + 1) ic conn data).any closesConnection
      = (decodeFails data && conn.peer.isSome) := by
  show (receiveData (Nat.succ fuel) ic conn data).any closesConnection = _
  unfold receiveData decodeFails
  cases hd : decodeMessage data with
  | error e =>
    dsimp only
    rcases conn with ⟨_ | p⟩ <;> simp [closesConnection]
  | ok msg =>
    dsimp only
    by_cases hc : msg.msgType = MsgTypeMsgChunk
    · rw [if_pos hc]
      rcases hic msg.msgData with h | h <;> rw [h] <;>
        simp [dispatchPeered_no_close, closesConnection]
    · rw [if_neg hc]
      simp [dispatchPeered_no_close]

/-- Witness for `receiveData_close_only_on_decode_error`: an undecodable
buffer on a handshaked peered connection does close the connection. -/
theorem receiveData_close_only_on_decode_error_witness :
    (receiveData (0 + 1) (fun _ => Except.error ())
        { peer := some { handshakeOk := true } } []).any closesConnection = true := by
  rw [receiveData_close_only_on_decode_error 0 (fun _ => Except.error ())
    { peer := some { handshakeOk := true } } [] (fun m => Or.inr rfl)]
  decide

/-- Claim C2 (counterexample): a HEARTBEAT frame (type 1, not HANDSHAKE)
arriving on a peered but not yet handshaked connection is merely logged, the
connection is not closed; likewise a chunk-reassembly failure is merely
logged.  This refutes the claim that those conditions close the connection. -/
theorem receiveData_unexpected_type_no_close :
    receiveData 1 (fun _ => Except.ok none)
        { peer := some { handshakeOk := false } } (1 :: List.replicate 8 0)
      = [Effect.logError]
    ∧ (receiveData 1 (fun _ => Except.ok none)
        { peer := some { handshakeOk := false } } (1 :: List.replicate 8 0)).any
          closesConnection = false
    ∧ receiveData 1 (fun _ => Except.error ())
        { peer := some { handshakeOk := true } } (2 :: List.replicate 8 0)
      = [Effect.logError] :=
  ⟨rfl, rfl, rfl⟩

/-- Claim C3 (code bug): the chunk branch of `receiveData` does not return,
so a `MSG_CHUNK` frame falls through to the dispatch code.  On a handshaked
connection, an incoming final chunk makes the receiver deliver TWO
application messages via `EventPeerMessageReceived`: the reassembled
composite message and, spuriously, the raw `MSG_CHUNK` frame itself. -/
theorem receiveData_forwards_chunk_frame :
    receiveData 2 (fun _ => Except.ok (some (16 :: List.replicate 8 0)))
        { peer := some { handshakeOk := true } } (2 :: List.replicate 8 0)
      = [Effect.receiveHeartbeat 0,
         Effect.triggerPeerMessageReceived { msgType := 16, timestamp := 0, msgData := [] },
         Effect.receiveHeartbeat 0,
         Effect.triggerPeerMessageReceived
           { msgType := MsgTypeMsgChunk, timestamp := 0, msgData := [] }] :=
  rfl

/-- Claim C10 (code bug): a decode failure on a connection not yet bound to a
peer (`bconn.peer == nil`, a freshly accepted inbound connection) makes
`receiveData` call `bconn.peer.closeConn()` on the nil peer: a nil-pointer
dereference, not a safe close. -/
theorem receiveData_nil_peer_deref :
    receiveData 1 (fun _ => Except.ok none) { peer := none } []
      = [Effect.logError, Effect.panicNilPeerDeref] :=
  rfl

/-- Claim C5: the first message on an accepted (detached) connection carrying
a HANDSHAKE with the sender's id binds the connection and answers with a
HANDSHAKE carrying the local node's own id exactly when the id is found in
the registry with inbound classification; in every other case the connection
is closed without binding. -/
theorem processHandShakeInbound_binds_or_closes
    (peers : List (List Nat × Bool)) (ownId : List Nat) (sendOk : Bool)
    (msg : PeerMessage) :
    ((processHandShakeInbound peers ownId sendOk msg).boundPeer
        = if lookupInbound peers msg.msgData then some msg.msgData else none)
    ∧ (Effect.sendHandshakeReply ownId
          ∈ (processHandShakeInbound peers ownId sendOk msg).effects
        ↔ lookupInbound peers msg.msgData = true)
    ∧ ((processHandShakeInbound peers ownId sendOk msg).peerHandshakeOk
        = lookupInbound peers msg.msgData)
    ∧ (lookupInbound peers msg.msgData = false →
        (processHandShakeInbound peers ownId sendOk msg).effects = [Effect.closeConn]
        ∧ (processHandShakeInbound peers ownId sendOk msg).boundPeer = none) := by
  unfold processHandShakeInbound
  cases hl : lookupInbound peers msg.msgData <;> cases sendOk <;> simp [hl]

/-- Witness for `processHandShakeInbound_binds_or_closes`: a handshake id
that is not in the (empty) registry closes the connection without binding. -/
theorem processHandShakeInbound_binds_or_closes_witness :
    (processHandShakeInbound [] [1] true
        { msgType := 0, timestamp := 0, msgData := [9] }).effects = [Effect.closeConn]
    ∧ (processHandShakeInbound [] [1] true
        { msgType := 0, timestamp := 0, msgData := [9] }).boundPeer = none :=
  (processHandShakeInbound_binds_or_closes [] [1] true
    { msgType := 0, timestamp := 0, msgData := [9] }).2.2.2 rfl

/-- Claim C6: the close handler resets `handshake_ok` and clears the peer's
connection slot, and consequently in every reachable peer state
`handshake_ok = true` implies the connection pointer is non-nil. -/
theorem peeredConnection_close_resets_and_invariant :
    (∀ p : PeerSt, (closeEventHandler p).handshakeOk = false
        ∧ (closeEventHandler p).peerconn = none)
    ∧ (∀ s : PeerSt, PeerReachable s →
        s.handshakeOk = true → s.peerconn.isSome = true) := by
  constructor
  · intro p
    exact ⟨rfl, rfl⟩
  · intro s hreach
    induction hreach with
    | refl =>
      intro h
      simp at h
    | tail hsteps hstep ih =>
      cases hstep with
      | dialBind c s =>
        intro h
        simp at h
      | inboundHandshake c s =>
        intro _
        rfl
      | outboundHandshake c s hc =>
        intro _
        simp [hc]
      | closeEvt s =>
        intro h
        simp [closeEventHandler] at h

/-- Witness for `peeredConnection_close_resets_and_invariant`: the close
handler clears a connected handshaked peer, and the state bound to
connection 0 with `handshake_ok` (reached by an inbound handshake) has a
non-nil connection pointer. -/
theorem peeredConnection_close_resets_and_invariant_witness :
    ((closeEventHandler { peerconn := some 5, handshakeOk := true }).handshakeOk = false
      ∧ (closeEventHandler { peerconn := some 5, handshakeOk := true }).peerconn = none)
    ∧ ({ peerconn := some 0, handshakeOk := true } : PeerSt).peerconn.isSome = true :=
  ⟨peeredConnection_close_resets_and_invariant.1 _,
   peeredConnection_close_resets_and_invariant.2 _
     (Relation.ReflTransGen.single (PeerStep.inboundHandshake 0 _)) rfl⟩

/-! ## Theorems about the consensus operator -/

/-- Writing inside the bounds of the slice and reading the written slot back
yields the written value. -/
lemma nthShare_set_self (l : List (Option SignedResult)) (i : Nat)
    (v : Option SignedResult) (h : i < l.length) :
    nthShare (l.set i v) i = v := by
  induction l generalizing i with
  | nil => simp at h
  | cons a t ih =>
    cases i with
    | zero => rfl
    | succ j => simpa [nthShare] using ih j (by simpa using h)

/-- Writing outside the bounds of a list is a no-op. -/
lemma listSet_oob {α : Type} (l : List α) (i : Nat) (v : α)
    (h : l.length ≤ i) : l.set i v = l := by
  induction l generalizing i with
  | nil => simp
  | cons a t ih =>
    cases i with
    | zero => simp at h
    | succ j => simpa using ih j (by simpa using h)

/-- Claim C1 (amended): `EventSignedHashMsg` records the signature share
under the sender's peer index exactly when the four gates of the source
hold — a `leaderStatus` exists, the message's state index equals the current
state index, the message's batch hash equals the leader's batch hash, and no
share from that sender was previously recorded (`shGates` additionally
requires the sender index to address a slot of the slice, where Go would
panic instead).  The message's essence hash is NOT compared against the
leader's own essence hash at recording time.  If any gate fails, the
operator's state is unchanged. -/
theorem eventSignedHash_gates (op : Operator) (msg : SignedHashMsg) :
    (shLookup (EventSignedHashMsg op msg) msg.senderIndex
      = if shGates op msg then
          some { essenceHash := msg.essenceHash, sigShare := msg.sigShare }
        else shLookup op msg.senderIndex)
    ∧ (shGates op msg = false → EventSignedHashMsg op msg = op) := by
  obtain ⟨lsOpt, siOpt, own⟩ := op
  cases lsOpt with
  | none => exact ⟨by simp [shGates, EventSignedHashMsg, shLookup], fun _ => rfl⟩
  | some ls =>
    obtain ⟨bh, srs⟩ := ls
    cases siOpt with
    | none => exact ⟨by simp [shGates, EventSignedHashMsg, shLookup], fun _ => rfl⟩
    | some si =>
      by_cases h1 : msg.stateIndex = si
      · by_cases h2 : msg.batchHash = bh
        · by_cases h3 : nthShare srs msg.senderIndex = none
          · have hev : EventSignedHashMsg
                { leaderStatus := some { batchHash := bh, signedResults := srs },
                  stateIndex := some si, ownPeerIndex := own } msg
                = { leaderStatus :=
                      some
                        { batchHash := bh,
                          signedResults := srs.set msg.senderIndex
                            (some { essenceHash := msg.essenceHash, sigShare := msg.sigShare }) },
                    stateIndex := some si, ownPeerIndex := own } := by
              unfold EventSignedHashMsg
              dsimp only
              rw [if_neg (not_not_intro h1), if_neg (not_not_intro h2),
                if_neg (by simp [h3])]
            by_cases h4 : msg.senderIndex < srs.length
            · have hg : shGates
                  { leaderStatus := some { batchHash := bh, signedResults := srs },
                    stateIndex := some si, ownPeerIndex := own } msg = true := by
                simp [shGates, h1, h2, h3, h4]
              constructor
              · rw [hev, hg, if_pos rfl]
                show nthShare (srs.set msg.senderIndex _) msg.senderIndex = _
                exact nthShare_set_self srs msg.senderIndex _ h4
              · intro hgf
                rw [hg] at hgf
                cases hgf
            · have hoob := listSet_oob srs msg.senderIndex
                (some { essenceHash := msg.essenceHash, sigShare := msg.sigShare })
                (Nat.le_of_not_lt h4)
              have hg : shGates
                  { leaderStatus := some { batchHash := bh, signedResults := srs },
                    stateIndex := some si, ownPeerIndex := own } msg = false := by
                simp [shGates, h4]
              constructor
              · rw [hev, hoob, hg]
                simp
              · intro _
                rw [hev, hoob]
          · have hev : EventSignedHashMsg
                { leaderStatus := some { batchHash := bh, signedResults := srs },
                  stateIndex := some si, ownPeerIndex := own } msg
                = { leaderStatus := some { batchHash := bh, signedResults := srs },
                    stateIndex := some si, ownPeerIndex := own } := by
              unfold EventSignedHashMsg
              dsimp only
              rw [if_neg (not_not_intro h1), if_neg (not_not_intro h2),
                if_pos (Option.ne_none_iff_isSome.mp h3)]
            have hg : shGates
                { leaderStatus := some { batchHash := bh, signedResults := srs },
                  stateIndex := some si, ownPeerIndex := own } msg = false := by
              simp [shGates, h3]
            constructor
            · rw [hev, hg]
              simp
            · intro _
              exact hev
        · have hev : EventSignedHashMsg
              { leaderStatus := some { batchHash := bh, signedResults := srs },
                stateIndex := some si, ownPeerIndex := own } msg
              = { leaderStatus := some { batchHash := bh, signedResults := srs },
                  stateIndex := some si, ownPeerIndex := own } := by
            unfold EventSignedHashMsg
            dsimp only
            rw [if_neg (not_not_intro h1), if_pos h2]
          have hg : shGates
              { leaderStatus := some { batchHash := bh, signedResults := srs },
                stateIndex := some si, ownPeerIndex := own } msg = false := by
            simp [shGates, h2]
          constructor
          · rw [hev, hg]
            simp
          · intro _
            exact hev
      · have hev : EventSignedHashMsg
            { leaderStatus := some { batchHash := bh, signedResults := srs },
              stateIndex := some si, ownPeerIndex := own } msg
            = { leaderStatus := some { batchHash := bh, signedResults := srs },
                stateIndex := some si, ownPeerIndex := own } := by
          unfold EventSignedHashMsg
          dsimp only
          rw [if_pos h1]
        have hg : shGates
            { leaderStatus := some { batchHash := bh, signedResults := srs },
              stateIndex := some si, ownPeerIndex := own } msg = false := by
          simp [shGates, h1]
        constructor
        · rw [hev, hg]
          simp
        · intro _
          exact hev

/-- Witness for `eventSignedHash_gates`: with no `leaderStatus` the gates
fail, nothing is recorded and the operator is unchanged. -/
theorem eventSignedHash_gates_witness :
    shLookup (EventSignedHashMsg { leaderStatus := none, stateIndex := some 3, ownPeerIndex := 0 }
        { senderIndex := 1, stateIndex := 3, batchHash := 7, essenceHash := 9, sigShare := 11 }) 1
      = shLookup { leaderStatus := none, stateIndex := some 3, ownPeerIndex := 0 } 1
    ∧ EventSignedHashMsg { leaderStatus := none, stateIndex := some 3, ownPeerIndex := 0 }
        { senderIndex := 1, stateIndex := 3, batchHash := 7, essenceHash := 9, sigShare := 11 }
      = { leaderStatus := none, stateIndex := some 3, ownPeerIndex := 0 } := by
  have h := eventSignedHash_gates
    { leaderStatus := none, stateIndex := some 3, ownPeerIndex := 0 }
    { senderIndex := 1, stateIndex := 3, batchHash := 7, essenceHash := 9, sigShare := 11 }
  exact ⟨by simpa using h.1, h.2 rfl⟩

/-- Claim C1 (counterexample): the share from peer 1 IS recorded although its
essence hash (9) differs from the leader's own essence hash (5) stored under
the leader's own peer index, and the leader state changes; the claimed
essence-hash gate does not exist in the code. -/
theorem eventSignedHash_records_mismatched_essence :
    shLookup (EventSignedHashMsg opC1 msgC1) msgC1.senderIndex
      = some { essenceHash := 9, sigShare := 11 }
    ∧ shLookup opC1 opC1.ownPeerIndex = some { essenceHash := 5, sigShare := 0 }
    ∧ msgC1.essenceHash ≠ 5
    ∧ EventSignedHashMsg opC1 msgC1 ≠ opC1 := by
  refine ⟨rfl, rfl, by decide, by decide⟩

/-- Claim C4: `EventResultCalculated` drops an out-of-context result (batch
state index different from current + 1) without dispatching anything;
otherwise it always forwards the produced batch to the state manager as
`PendingBatchMsg`, stores the result as the node's own signed result exactly
when the task's leader peer index is the node's own index, and sends a signed
hash to the leader exactly otherwise. -/
theorem eventResultCalculated_dispatch (stateIndex ownPeerIndex : Nat) (ctx : VMTask) :
    (ctx.resultBatchStateIndex ≠ stateIndex + 1 →
      EventResultCalculated stateIndex ownPeerIndex ctx = [])
    ∧ (OpEffect.pendingBatchToStateManager ∈ EventResultCalculated stateIndex ownPeerIndex ctx
        ↔ ctx.resultBatchStateIndex = stateIndex + 1)
    ∧ (OpEffect.saveOwnResult ∈ EventResultCalculated stateIndex ownPeerIndex ctx
        ↔ (ctx.resultBatchStateIndex = stateIndex + 1 ∧ ctx.leaderPeerIndex = ownPeerIndex))
    ∧ (OpEffect.sendResultToLeader ∈ EventResultCalculated stateIndex ownPeerIndex ctx
        ↔ (ctx.resultBatchStateIndex = stateIndex + 1 ∧ ctx.leaderPeerIndex ≠ ownPeerIndex)) := by
  by_cases h : ctx.resultBatchStateIndex = stateIndex + 1 <;>
    by_cases h2 : ctx.leaderPeerIndex = ownPeerIndex <;>
      simp [EventResultCalculated, h, h2]

/-- Witness for `eventResultCalculated_dispatch`: a result batch for state
index 5 while the operator is at state index 3 is dropped. -/
theorem eventResultCalculated_dispatch_witness :
    EventResultCalculated 3 0 { resultBatchStateIndex := 5, leaderPeerIndex := 0 } = [] :=
  (eventResultCalculated_dispatch 3 0
    { resultBatchStateIndex := 5, leaderPeerIndex := 0 }).1 (by decide)

/-! ## Theorems about the bootup registry -/

/-- Reading back exactly the bytes of `l` from `l ++ r`. -/
lemma readBytes_append (l r : List Nat) : readBytes l.length (l ++ r) = some (l, r) := by
  unfold readBytes
  rw [if_pos (by simp), List.take_left, List.drop_left]

/-- Reading a fixed-size array back from its bytes followed by anything. -/
lemma readFixed_append (n : Nat) (a : { l : List Nat // l.length = n }) (r : List Nat) :
    readFixed n (a.val ++ r) = some (a, r) := by
  obtain ⟨l, hl⟩ := a
  subst hl
  unfold readFixed
  rw [dif_pos (by simp)]
  simp [List.take_left, List.drop_left]

/-- Round trip of the two-byte `u16` encoding. -/
lemma readUint16_writeUint16 (n : Nat) (h : n < 65536) (r : List Nat) :
    ReadUint16 (WriteUint16 n ++ r) = some (n, r) := by
  show some ((n % 256) + 256 * (n / 256 % 256), r) = some (n, r)
  have he : (n % 256) + 256 * (n / 256 % 256) = n := by omega
  rw [he]

/-- Round trip of one length-prefixed string. -/
lemma readString16_writeString16 (s w r : List Nat) (hw : WriteString16 s = some w) :
    ReadString16 (w ++ r) = some (s, r) := by
  unfold WriteString16 at hw
  by_cases h : s.length < 65536
  · rw [if_pos h] at hw
    obtain rfl := Option.some.inj hw
    unfold ReadString16
    rw [List.append_assoc, readUint16_writeUint16 s.length h]
    exact readBytes_append s r
  · rw [if_neg h] at hw
    cases hw

/-- Round trip of a concatenated string list (without the count header). -/
lemma readStringsN_writeStringsList (ss : List (List Nat)) (body r : List Nat)
    (hw : writeStringsList ss = some body) :
    readStringsN ss.length (body ++ r) = some (ss, r) := by
  induction ss generalizing body r with
  | nil =>
    obtain rfl := Option.some.inj hw
    rfl
  | cons s rest ih =>
    unfold writeStringsList at hw
    cases hws : WriteString16 s with
    | none => rw [hws] at hw; cases hw
    | some w =>
      cases hwr : writeStringsList rest with
      | none => rw [hws, hwr] at hw; cases hw
      | some ws =>
        rw [hws, hwr] at hw
        obtain rfl := Option.some.inj hw
        show readStringsN (Nat.succ rest.length) ((w ++ ws) ++ r) = _
        unfold readStringsN
        rw [List.append_assoc, readString16_writeString16 s w (ws ++ r) hws]
        dsimp only
        rw [ih ws r hwr]

/-- Round trip of `WriteStrings16` / `ReadStrings16`. -/
lemma readStrings16_writeStrings16 (ss : List (List Nat)) (out r : List Nat)
    (hw : WriteStrings16 ss = some out) :
    ReadStrings16 (out ++ r) = some (ss, r) := by
  unfold WriteStrings16 at hw
  by_cases h : ss.length < 65536
  · rw [if_pos h] at hw
    cases hwl : writeStringsList ss with
    | none => rw [hwl] at hw; cases hw
    | some body =>
      rw [hwl] at hw
      obtain rfl := Option.some.inj hw
      unfold ReadStrings16
      rw [List.append_assoc, readUint16_writeUint16 ss.length h]
      exact readStringsN_writeStringsList ss body r hwl
  · rw [if_neg h] at hw
    cases hw

/-- Claim C7: serializing a `BootupData` record with `Write` (address, owner
address, color, committee-node list, access-node list) and deserializing the
produced bytes with `Read` yields the original record, consuming all
bytes. -/
theorem BootupData_Write_Read_roundtrip (bd : BootupData) (out : List Nat)
    (hw : BootupData.Write bd = some out) :
    BootupData.Read out = some (bd, []) := by
  unfold BootupData.Write at hw
  cases hcn : WriteStrings16 bd.committeeNodes with
  | none => rw [hcn] at hw; cases hw
  | some cn =>
    cases han : WriteStrings16 bd.accessNodes with
    | none => rw [hcn, han] at hw; cases hw
    | some an =>
      rw [hcn, han] at hw
      obtain rfl := Option.some.inj hw
      have h4 : ReadStrings16 (cn ++ an) = some (bd.committeeNodes, an) :=
        readStrings16_writeStrings16 bd.committeeNodes cn an hcn
      have h5 : ReadStrings16 an = some (bd.accessNodes, []) := by
        have := readStrings16_writeStrings16 bd.accessNodes an [] han
        simpa using this
      unfold BootupData.Read ReadAddress ReadColor
      rw [readFixed_append 20 bd.address]
      dsimp only
      rw [readFixed_append 20 bd.ownerAddress]
      dsimp only
      rw [readFixed_append 32 bd.color]
      dsimp only
      rw [h4]
      dsimp only
      rw [h5]

/-- Witness for `BootupData_Write_Read_roundtrip` on a concrete record. -/
theorem BootupData_Write_Read_roundtrip_witness :
    BootupData.Read ((BootupData.Write bdEx).getD []) = some (bdEx, []) :=
  BootupData_Write_Read_roundtrip bdEx _ rfl

/-- Claim C8 (amended): `SaveBootupData` fails with the empty-address error
exactly on the all-zero address, and fails with the color error exactly when
the color is one of the TWO forbidden reserved colors: the all-zero IOTA
color or the all-0xFF "new color" marker; every other address/color pair
passes both validation checks. -/
theorem SaveBootupData_validation (store : Store) (bd : BootupData) (ow : Bool) :
    ((SaveBootupData store bd ow = Except.error "can be empty address")
        ↔ bd.address = nilAddress)
    ∧ ((SaveBootupData store bd ow = Except.error "cant be IOTA or New color")
        ↔ (bd.address ≠ nilAddress ∧ (bd.color = colorNew ∨ bd.color = colorIOTA))) := by
  have hs : ("can be empty address" : String) ≠ "cant be IOTA or New color" := by decide
  have hs2 : ("can be empty address" : String) ≠ "smart contract already exist in the registry" := by decide
  have hs3 : ("can be empty address" : String) ≠ "write error" := by decide
  have hs4 : ("cant be IOTA or New color" : String) ≠ "smart contract already exist in the registry" := by decide
  have hs5 : ("cant be IOTA or New color" : String) ≠ "write error" := by decide
  unfold SaveBootupData
  by_cases h1 : bd.address = nilAddress
  · rw [if_pos h1]
    exact ⟨by simp [h1], by simp [hs.symm, h1]⟩
  · rw [if_neg h1]
    by_cases h2 : bd.color = colorNew ∨ bd.color = colorIOTA
    · rw [if_pos h2]
      exact ⟨by simp [hs, h1], by simp [h1, h2]⟩
    · rw [if_neg h2]
      by_cases h3 : (ow && storeHas store (dbkeyBootupData bd.address)) = true
      · rw [if_pos h3]
        exact ⟨by simp [hs2, h1], by simp [hs4.symm, h2]⟩
      · rw [if_neg h3]
        cases hW : BootupData.Write bd with
        | none => exact ⟨by simp [hs3, h1], by simp [hs5.symm, h2]⟩
        | some bs => exact ⟨by simp [h1], by simp [h2]⟩

/-- Witness for `SaveBootupData_validation`: the record with the reserved
all-0xFF color fails with the color error and not with the address error. -/
theorem SaveBootupData_validation_witness :
    SaveBootupData [] bdC8 false = Except.error "cant be IOTA or New color"
    ∧ ¬(SaveBootupData [] bdC8 false = Except.error "can be empty address") := by
  have h := SaveBootupData_validation [] bdC8 false
  constructor
  · exact h.2.mpr ⟨by decide, Or.inl rfl⟩
  · intro hc
    exact absurd (h.1.mp hc) (by decide)

/-- Claim C8 (counterexample): `SaveBootupData` rejects the all-0xFF reserved
`ColorNew` color although the address is non-zero and the color differs from
the all-zero IOTA color, refuting the claim that all colors other than the
all-zero IOTA color pass validation. -/
theorem SaveBootupData_rejects_colorNew :
    SaveBootupData [] bdC8 false = Except.error "cant be IOTA or New color"
    ∧ bdC8.address ≠ nilAddress
    ∧ bdC8.color ≠ colorIOTA :=
  ⟨rfl, by decide, by decide⟩

/-- Claim C9: for a record passing validation, `SaveBootupData` with
`overwrite = true` fails whenever a record for the same address already
exists (persisting nothing), while with `overwrite = false` it writes
unconditionally, replacing any existing record for that address. -/
theorem SaveBootupData_overwrite_semantics (store : Store) (bd : BootupData)
    (bs : List Nat)
    (h1 : bd.address ≠ nilAddress) (h2 : bd.color ≠ colorNew)
    (h3 : bd.color ≠ colorIOTA) (hw : BootupData.Write bd = some bs) :
    (storeHas store (dbkeyBootupData bd.address) = true →
      SaveBootupData store bd true
        = Except.error "smart contract already exist in the registry")
    ∧ SaveBootupData store bd false
        = Except.ok (storeSet store (dbkeyBootupData bd.address) bs) := by
  constructor
  · intro hh
    unfold SaveBootupData
    rw [if_neg h1, if_neg (not_or.mpr ⟨h2, h3⟩), if_pos (by simp [hh])]
  · unfold SaveBootupData
    rw [if_neg h1, if_neg (not_or.mpr ⟨h2, h3⟩), if_neg (by simp), hw]

/-- Witness for `SaveBootupData_overwrite_semantics`: with a record for the
address already present, `overwrite = true` fails and `overwrite = false`
replaces it. -/
theorem SaveBootupData_overwrite_semantics_witness :
    SaveBootupData [(dbkeyBootupData bdC9.address, [])] bdC9 true
      = Except.error "smart contract already exist in the registry"
    ∧ SaveBootupData [(dbkeyBootupData bdC9.address, [])] bdC9 false
      = Except.ok (storeSet [(dbkeyBootupData bdC9.address, [])]
          (dbkeyBootupData bdC9.address) ((BootupData.Write bdC9).getD [])) := by
  have h := SaveBootupData_overwrite_semantics [(dbkeyBootupData bdC9.address, [])]
    bdC9 ((BootupData.Write bdC9).getD []) (by decide) (by decide) (by decide) rfl
  exact ⟨h.1 rfl, h.2⟩

end Wasp
